import Mathlib

/-!
Verification of the Kokoro text-to-speech worker scripts
(`kokoro_python_server.py`, the persistent line-delimited JSON command loop,
and `kokoro_python_helper.py`, the one-shot invocation) against their
natural-language specification.

The shallow embedding below translates the two Python files into Lean:

* JSON values are the inductive `JVal`; the stdlib `json.dumps` contract is
  modelled by `dumps` (compact one-line rendering with string escaping; the
  decimal rendering of Python floats is modelled by an exact-rational digit
  expansion, since IEEE rounding is irrelevant to every claim).
* The opaque third-party capabilities (the `KPipeline` constructor, the
  synthesis generator, and `soundfile.write`) are environment parameters
  (`Env`, `HEnv`): each call site consults the environment for the outcome
  the real capability would have produced (normal return or raised
  exception), exactly at the program points where the Python code calls it.
* Process state (the module-level `pipelines` dict, files written, text
  printed to stdout/stderr) is threaded explicitly through `SState`.
  `nextId` and `constructions` are ghost instrumentation: `nextId` models
  Python object identity of pipeline handles, `constructions` logs every
  invocation of the pipeline constructor (needed to state construct-once
  properties); neither influences control flow.
* Python floats are modelled as exact rationals (`ℚ`).
-/

/-- JSON values, as produced by `json.loads` / consumed by `json.dumps`.
Python distinguishes `int` and `float`; both appear in responses
(`sample_rate` is an int, `duration` a float). -/
inductive JVal : Type where
  | jnull : JVal
  | jbool : Bool → JVal
  | jint : Int → JVal
  | jfloat : ℚ → JVal
  | jstr : String → JVal
  | jarr : List JVal → JVal
  | jobj : List (String × JVal) → JVal

/-- Newline, the character that must never occur in a response line. -/
def nlChar : Char := Char.ofNat 10

/-- Double quote. -/
def qtChar : Char := Char.ofNat 34

/-- Backslash. -/
def bslChar : Char := Char.ofNat 92

/-- Opening brace. -/
def lbraceChar : Char := Char.ofNat 123

/-- Closing brace. -/
def rbraceChar : Char := Char.ofNat 125

/-- Opening bracket. -/
def lbrackChar : Char := Char.ofNat 91

/-- Closing bracket. -/
def rbrackChar : Char := Char.ofNat 93

/-- Comma. -/
def commaChar : Char := Char.ofNat 44

/-- Space. -/
def spaceChar : Char := Char.ofNat 32

/-- Colon. -/
def colonChar : Char := Char.ofNat 58

/-- Dot. -/
def dotChar : Char := Char.ofNat 46

/-- Minus sign. -/
def minusChar : Char := Char.ofNat 45

/-- Decimal digit character for `n % 10`. -/
def digitChar (n : Nat) : Char :=
  match n % 10 with
  | 0 => Char.ofNat 48
  | 1 => Char.ofNat 49
  | 2 => Char.ofNat 50
  | 3 => Char.ofNat 51
  | 4 => Char.ofNat 52
  | 5 => Char.ofNat 53
  | 6 => Char.ofNat 54
  | 7 => Char.ofNat 55
  | 8 => Char.ofNat 56
  | _ => Char.ofNat 57

/-- Hexadecimal digit character for `n % 16`. -/
def hexDigitChar (n : Nat) : Char :=
  match n % 16 with
  | 0 => Char.ofNat 48
  | 1 => Char.ofNat 49
  | 2 => Char.ofNat 50
  | 3 => Char.ofNat 51
  | 4 => Char.ofNat 52
  | 5 => Char.ofNat 53
  | 6 => Char.ofNat 54
  | 7 => Char.ofNat 55
  | 8 => Char.ofNat 56
  | 9 => Char.ofNat 57
  | 10 => Char.ofNat 97
  | 11 => Char.ofNat 98
  | 12 => Char.ofNat 99
  | 13 => Char.ofNat 100
  | 14 => Char.ofNat 101
  | _ => Char.ofNat 102

/-- Four-hex-digit rendering used by the `ensure_ascii` escape `\uXXXX`.
(Code points above `0xFFFF` would use surrogate pairs in Python; that detail
is collapsed to the low 16 bits, irrelevant to every claim.) -/
def hex4 (n : Nat) : List Char :=
  [hexDigitChar (n / 4096), hexDigitChar (n / 256), hexDigitChar (n / 16),
   hexDigitChar n]

/-- Escaping of one character inside a JSON string literal, as `json.dumps`
does with its default `ensure_ascii=True`. -/
def escChar (c : Char) : List Char :=
  if c.toNat = 34 then [bslChar, qtChar]
  else if c.toNat = 92 then [bslChar, bslChar]
  else if c.toNat = 10 then [bslChar, Char.ofNat 110]
  else if c.toNat = 13 then [bslChar, Char.ofNat 114]
  else if c.toNat = 9 then [bslChar, Char.ofNat 116]
  else if c.toNat = 8 then [bslChar, Char.ofNat 98]
  else if c.toNat = 12 then [bslChar, Char.ofNat 102]
  else if c.toNat < 32 ∨ 126 < c.toNat then
    bslChar :: Char.ofNat 117 :: hex4 c.toNat
  else [c]

/-- A JSON string literal: quote, escaped characters, quote. -/
def escStrL (s : String) : List Char :=
  qtChar :: (s.data.map escChar).flatten ++ [qtChar]

/-- Decimal digits of a natural number (fuel-indexed; `natDigits` supplies
enough fuel for full expansion). -/
def natDigitsAux : Nat → Nat → List Char
  | 0, _ => []
  | fuel + 1, n =>
      if n < 10 then [digitChar n]
      else natDigitsAux fuel (n / 10) ++ [digitChar n]

/-- Decimal digits of a natural number. -/
def natDigits (n : Nat) : List Char := natDigitsAux (n + 1) n

/-- Decimal rendering of an integer. -/
def intReprL (i : Int) : List Char :=
  if i < 0 then minusChar :: natDigits i.natAbs else natDigits i.natAbs

/-- First `fuel` digits of the fractional expansion of `r / d`. -/
def fracDigitsL : Nat → Nat → Nat → List Char
  | 0, _, _ => []
  | fuel + 1, r, d => digitChar (r * 10 / d) :: fracDigitsL fuel (r * 10 % d) d

/-- Drop trailing zero digits but keep at least one digit. -/
def trimZeros (l : List Char) : List Char :=
  if ((l.reverse.dropWhile (fun c => c == Char.ofNat 48)).reverse).isEmpty
  then [Char.ofNat 48]
  else (l.reverse.dropWhile (fun c => c == Char.ofNat 48)).reverse

/-- Decimal rendering of a Python float, modelled on an exact rational:
sign, integer part, dot, fractional digits (17 places, trailing zeros
trimmed). Python `repr` additionally switches to scientific notation and
rounds to the shortest round-tripping form; no claim depends on the exact
digit string, only on it being a single-line JSON number. -/
def floatReprL (q : ℚ) : List Char :=
  let a : ℚ := |q|
  let ip : Nat := a.num.toNat / a.den
  let r0 : Nat := a.num.toNat % a.den
  (if q < 0 then [minusChar] else []) ++ natDigits ip ++ dotChar ::
    (if r0 = 0 then [Char.ofNat 48] else trimZeros (fracDigitsL 17 r0 a.den))

mutual

/-- Compact one-line rendering of a JSON value, modelling `json.dumps` with
its default separators. -/
def dumpsL : JVal → List Char
  | .jnull => [Char.ofNat 110, Char.ofNat 117, Char.ofNat 108, Char.ofNat 108]
  | .jbool true =>
      [Char.ofNat 116, Char.ofNat 114, Char.ofNat 117, Char.ofNat 101]
  | .jbool false =>
      [Char.ofNat 102, Char.ofNat 97, Char.ofNat 108, Char.ofNat 115,
       Char.ofNat 101]
  | .jint i => intReprL i
  | .jfloat q => floatReprL q
  | .jstr s => escStrL s
  | .jarr xs => lbrackChar :: dumpsArr xs ++ [rbrackChar]
  | .jobj kvs => lbraceChar :: dumpsObj kvs ++ [rbraceChar]

/-- Array elements joined by `", "`. -/
def dumpsArr : List JVal → List Char
  | [] => []
  | x :: xs =>
      dumpsL x ++ (if xs.isEmpty then [] else [commaChar, spaceChar])
        ++ dumpsArr xs

/-- Object entries `"key": value` joined by `", "`. -/
def dumpsObj : List (String × JVal) → List Char
  | [] => []
  | (k, v) :: rest =>
      escStrL k ++ colonChar :: spaceChar :: dumpsL v
        ++ (if rest.isEmpty then [] else [commaChar, spaceChar])
        ++ dumpsObj rest

end

/-- The response line `json.dumps` would print for a JSON value. -/
def dumps (v : JVal) : String := String.mk (dumpsL v)

/-- Python truthiness of a JSON value (`if not all([...])` in the server):
`None`, `False`, `0`, `0.0`, `""`, `[]` and `\x7b\x7d` are falsy. -/
def truthy : JVal → Bool
  | .jnull => false
  | .jbool b => b
  | .jint n => !(n == 0)
  | .jfloat q => !(q == 0)
  | .jstr s => !(s == "")
  | .jarr xs => !xs.isEmpty
  | .jobj kvs => !kvs.isEmpty

/-- Field lookup in a parsed JSON object. `json.loads` keeps the last value
for a duplicated key, hence the reverse. -/
def jlookup (kvs : List (String × JVal)) (k : String) : Option JVal :=
  (kvs.reverse.find? (fun e => e.1 == k)).map (fun e => e.2)

/-- `command.get(k)`: the field value, or `None` when absent. -/
def vget (kvs : List (String × JVal)) (k : String) : JVal :=
  (jlookup kvs k).getD .jnull

/-- `command.get("action") == a` for a string literal `a`. -/
def isAction (kvs : List (String × JVal)) (a : String) : Bool :=
  match jlookup kvs "action" with
  | some (.jstr x) => x == a
  | _ => false

/-- Whether a JSON value may serve as a Python dict key (`lang_code not in
pipelines` raises `TypeError: unhashable type` on lists and dicts). -/
def hashable : JVal → Bool
  | .jarr _ => false
  | .jobj _ => false
  | _ => true

/-- Python type name of a JSON value, used in modelled exception text. -/
def pyTypeName : JVal → String
  | .jnull => "NoneType"
  | .jbool _ => "bool"
  | .jint _ => "int"
  | .jfloat _ => "float"
  | .jstr _ => "str"
  | .jarr _ => "list"
  | .jobj _ => "dict"

/-- Modelled `str(e)` of the `AttributeError` raised by `command.get(...)`
when `json.loads` returned a non-dict value (quotes of the original Python
message elided). -/
def attrMsg (v : JVal) : String :=
  pyTypeName v ++ " object has no attribute get"

/-- Modelled `str(e)` of the `TypeError` raised by a dict lookup with an
unhashable key. -/
def unhashableMsg (v : JVal) : String :=
  "unhashable type: " ++ pyTypeName v

/-- Dict-key equality on hashable JSON scalars, modelling the `==` used by
Python dict lookup. (Python additionally identifies `True == 1 == 1.0`
across types; no claim exercises cross-type numeric keys.) -/
def scalarKeyEq : JVal → JVal → Bool
  | .jnull, .jnull => true
  | .jbool a, .jbool b => a == b
  | .jint a, .jint b => a == b
  | .jfloat a, .jfloat b => a == b
  | .jstr a, .jstr b => a == b
  | _, _ => false

/-- The failure response dict `\x7b"success": False, "error": e\x7d`. -/
def failResp (e : String) : JVal :=
  .jobj [("success", .jbool false), ("error", .jstr e)]

/-- Response to an unparseable request line. -/
def invalidJsonResp : JVal := failResp "Invalid JSON"

/-- Response to a `generate` request with missing/empty fields. -/
def missingParamsResp : JVal := failResp "Missing required parameters"

/-- Response to an unrecognized action. -/
def unknownActionResp : JVal := failResp "Unknown action"

/-- Response to `ping`. -/
def pongResp : JVal :=
  .jobj [("success", .jbool true), ("message", .jstr "pong")]

/-- The success response dict of `generate_audio`, in source field order. -/
def successResp (output_path : JVal) (duration : ℚ) : JVal :=
  .jobj [("success", .jbool true), ("output_path", output_path),
         ("duration", .jfloat duration), ("sample_rate", .jint 24000)]

/-- Outcomes of the opaque capabilities, per call site of the server
(`KPipeline(lang_code=...)`, the synthesis generator, `sf.write`).
`constructResult` is consulted at the k-th constructor invocation of the
process (attempt index = length of the construction log) for a given code:
`some e` models the constructor raising with message `e`, `none` models
success. `runResult` maps pipeline handle, text and voice to either the
eagerly-collected chunk list or a raised exception; `writeResult` maps the
output path to `some e` when `sf.write` raises. -/
structure Env : Type where
  constructResult : Nat → JVal → Option String
  runResult : Nat → JVal → JVal → Except String (List (List Int))
  writeResult : JVal → Option String

/-- Server process state. `pipelines` is the module-level cache (insertion
ordered, as a Python dict); `nextId` and `constructions` are ghost
instrumentation (handle identity, constructor-invocation log);
`writeAttempts` logs every `sf.write` call; `files` the files successfully
written; `out`/`err` the lines printed to stdout/stderr. -/
structure SState : Type where
  pipelines : List (JVal × Nat)
  nextId : Nat
  constructions : List JVal
  writeAttempts : List JVal
  files : List (JVal × List Int × Nat)
  out : List String
  err : List String

/-- The state at server startup: empty cache, nothing printed. -/
def initState : SState :=
  ⟨[], 0, [], [], [], [], []⟩

/-- Append one response line to stdout (`print(json.dumps(r), flush=True)`). -/
def emitOut (s : SState) (r : JVal) : SState :=
  { s with out := s.out ++ [dumps r] }

/-- Cache lookup (`lang_code in pipelines` / `pipelines[lang_code]`). -/
def klookup (pl : List (JVal × Nat)) (k : JVal) : Option Nat :=
  (pl.find? (fun e => scalarKeyEq e.1 k)).map (fun e => e.2)

/-- `get_pipeline` of kokoro_python_server.py: construct-on-first-use cache.
If the key is unhashable the dict membership test itself raises; if the
constructor raises, nothing is stored (the assignment never executes). The
error component models the exception propagating to the caller. -/
def get_pipeline (env : Env) (s : SState) (lang_code : JVal) :
    Except String Nat × SState :=
  if hashable lang_code then
    match klookup s.pipelines lang_code with
    | some h => (.ok h, s)
    | none =>
      match env.constructResult s.constructions.length lang_code with
      | some e =>
          (.error e, { s with constructions := s.constructions ++ [lang_code] })
      | none =>
          (.ok s.nextId,
           { s with
             pipelines := s.pipelines ++ [(lang_code, s.nextId)],
             nextId := s.nextId + 1,
             constructions := s.constructions ++ [lang_code] })
  else (.error (unhashableMsg lang_code), s)

/-- `generate_audio` of kokoro_python_server.py: get the cached pipeline,
consume the generator eagerly, reject an empty segment list, concatenate,
write at 24000 Hz, report duration `len(full_audio) / 24000.0`. The
surrounding `try/except` converts every raised exception into a failure
response dict. -/
def generate_audio (env : Env) (s : SState)
    (text voice lang_code output_path : JVal) : JVal × SState :=
  match get_pipeline env s lang_code with
  | (.error e, s1) => (failResp e, s1)
  | (.ok h, s1) =>
    match env.runResult h text voice with
    | .error e => (failResp e, s1)
    | .ok audio_segments =>
      if audio_segments.isEmpty then
        (failResp "No audio generated", s1)
      else
        let full_audio := audio_segments.flatten
        let s2 := { s1 with writeAttempts := s1.writeAttempts ++ [output_path] }
        match env.writeResult output_path with
        | some e => (failResp e, s2)
        | none =>
          (successResp output_path ((full_audio.length : ℚ) / 24000),
           { s2 with files := s2.files ++ [(output_path, full_audio, 24000)] })

/-- One line of server stdin, classified by the outcome of
`json.loads(line.strip())`: whitespace-only, unparseable (→
`json.JSONDecodeError`), or a parsed JSON value. The parser itself is
Python stdlib, treated as an opaque capability. -/
inductive InLine : Type where
  | blank : InLine
  | badJson : String → InLine
  | val : JVal → InLine

/-- Result of dispatching one request inside the `for line in sys.stdin`
loop: continue with the next line, break out (`exit`), or an exception
escaping to the top-level handler. -/
inductive Step : Type where
  | cont : SState → Step
  | brk : SState → Step
  | exn : SState → String → Step

/-- The state carried by a step result. -/
def stepState : Step → SState
  | .cont s => s
  | .brk s => s
  | .exn s _ => s

/-- The loop body of `main()` in kokoro_python_server.py for one input line:
skip blank lines, answer `Invalid JSON` on parse failure, then dispatch on
`command.get("action")`. A non-dict parse result makes `command.get` raise
`AttributeError`, which escapes the body (there is no per-request handler). -/
def dispatch (env : Env) (s : SState) : InLine → Step
  | .blank => .cont s
  | .badJson _ => .cont (emitOut s invalidJsonResp)
  | .val (.jobj command) =>
    if isAction command "generate" then
      let text := vget command "text"
      let voice := vget command "voice"
      let lang_code := vget command "lang_code"
      let output_path := vget command "output_path"
      if !(truthy text && truthy voice && truthy lang_code
            && truthy output_path) then
        .cont (emitOut s missingParamsResp)
      else
        let result := generate_audio env s text voice lang_code output_path
        .cont (emitOut result.2 result.1)
    else if isAction command "ping" then
      .cont (emitOut s pongResp)
    else if isAction command "exit" then
      .brk s
    else
      .cont (emitOut s unknownActionResp)
  | .val v => .exn s (attrMsg v)

/-- `main()` of kokoro_python_server.py over a finite stdin: process lines
until end of input, an `exit` request, or an exception reaching the
top-level `except`, which prints one JSON error record to stderr and
returns (terminating the process). -/
def runLoop (env : Env) (s : SState) : List InLine → SState
  | [] => s
  | l :: rest =>
    match dispatch env s l with
    | .cont s1 => runLoop env s1 rest
    | .brk s1 => s1
    | .exn s1 e => { s1 with err := s1.err ++ [dumps (failResp e)] }

/-- Outcome of the one-shot helper process: normal termination with an exit
status, or an uncaught exception (Python prints a traceback and exits 1). -/
inductive HExit : Type where
  | exited : Nat → HExit
  | crashed : String → HExit

/-- Observable result of one helper invocation: exit outcome, lines printed
to the real stdout, chunks printed to the real stderr, `sf.write` attempts,
and files written. -/
structure HResult : Type where
  hexit : HExit
  out : List String
  err : List String
  writeAttempts : List String
  files : List (String × List Int × Nat)

/-- Opaque-capability outcomes for one helper invocation:
`constructResult lang` models `KPipeline(lang_code=lang)` raising
(`some e`) or succeeding; `runResult text voice lang` the eager consumption
of the generator; `capturedOut`/`capturedErr` whatever the model framework
wrote to the redirected stdout/stderr while they pointed at the shim
buffers; `writeResult path` models `sf.write` raising. -/
structure HEnv : Type where
  constructResult : String → Option String
  runResult : String → String → String → Except String (List (List Int))
  capturedOut : String
  capturedErr : String
  writeResult : String → Option String

/-- The usage message printed (to stderr) when fewer than 4 values are in
`sys.argv`. -/
def usageMsg : String :=
  "ERROR: Usage: python kokoro_python_helper.py <text> <voice> <lang_code> <output_path>"

/-- Modelled traceback text of the uncaught `IndexError` raised by
`sys.argv[4]` when exactly three positional arguments are supplied
(`len(sys.argv) < 4` is satisfied by 4 entries, but index 4 is absent). -/
def indexErrMsg : String :=
  "Traceback: IndexError: list index out of range"

/-- `main()` of kokoro_python_helper.py. `argv` is the full `sys.argv`
including the script name. The stream-redirection shim is modelled by its
observable effect: everything the model wrote to the redirected stdout
(`capturedOut`) is discarded, the redirected stderr content is re-emitted
to the real stderr by the `finally` block, and the single JSON result (on
success) is printed to the restored real stdout afterwards. -/
def helper_main (env : HEnv) (argv : List String) : HResult :=
  if argv.length < 4 then
    ⟨.exited 1, [], [usageMsg], [], []⟩
  else
    match argv[4]? with
    | none => ⟨.crashed indexErrMsg, [], [indexErrMsg], [], []⟩
    | some output_path =>
      let text := (argv[1]?).getD ""
      let voice := (argv[2]?).getD ""
      let lang_code := (argv[3]?).getD ""
      let errEmit : List String :=
        if env.capturedErr == "" then [] else [env.capturedErr]
      match env.constructResult lang_code with
      | some e => ⟨.exited 1, [], errEmit ++ [dumps (failResp e)], [], []⟩
      | none =>
        match env.runResult text voice lang_code with
        | .error e => ⟨.exited 1, [], errEmit ++ [dumps (failResp e)], [], []⟩
        | .ok audio_segments =>
          if audio_segments.isEmpty then
            ⟨.exited 1, [],
             errEmit ++ [dumps (failResp "No audio generated")], [], []⟩
          else
            let full_audio := audio_segments.flatten
            match env.writeResult output_path with
            | some e =>
                ⟨.exited 1, [], errEmit ++ [dumps (failResp e)],
                 [output_path], []⟩
            | none =>
                ⟨.exited 0,
                 [dumps (successResp (.jstr output_path)
                    ((full_audio.length : ℚ) / 24000))],
                 errEmit, [output_path],
                 [(output_path, full_audio, 24000)]⟩

/-- The response dicts the worker can ever print on a primary output
channel (server stdout or helper stdout). -/
inductive Emitted : JVal → Prop where
  | invalid : Emitted invalidJsonResp
  | missing : Emitted missingParamsResp
  | unknown : Emitted unknownActionResp
  | pong : Emitted pongResp
  | ok (p : JVal) (d : ℚ) : Emitted (successResp p d)
  | fail (e : String) : Emitted (failResp e)

/-- A response dict is well-shaped: either a success without an `error`
field, or a failure carrying a string `error`; anything that is not an
object is ill-shaped. -/
def respShapeOk : JVal → Prop
  | .jobj kvs =>
      (jlookup kvs "success" = some (.jbool true)
        ∧ jlookup kvs "error" = none)
    ∨ (jlookup kvs "success" = some (.jbool false)
        ∧ ∃ e, jlookup kvs "error" = some (.jstr e))
  | _ => False

/-- A concrete server environment where every capability succeeds and the
model yields two chunks of 2 and 1 samples. -/
def env0 : Env :=
  ⟨fun _ _ => none, fun _ _ _ => .ok [[1, 2], [3]], fun _ => none⟩

/-- A concrete server environment whose model yields zero chunks. -/
def envNoAudio : Env :=
  ⟨fun _ _ => none, fun _ _ _ => .ok [], fun _ => none⟩

/-- A concrete server environment whose pipeline constructor raises on the
first invocation of the process and succeeds afterwards. -/
def envFailOnce : Env :=
  ⟨fun k _ => if k = 0 then some "model load failed" else none,
   fun _ _ _ => .ok [[1]], fun _ => none⟩

/-- A concrete helper environment where every capability succeeds. -/
def henv0 : HEnv :=
  ⟨fun _ => none, fun _ _ _ => .ok [[1, 2], [3]], "", "", fun _ => none⟩

/-- A concrete helper environment whose model yields zero chunks. -/
def henvNoAudio : HEnv :=
  ⟨fun _ => none, fun _ _ _ => .ok [], "", "", fun _ => none⟩

/-- A concrete well-formed `generate` request line. -/
def genLine : InLine :=
  .val (.jobj [("action", .jstr "generate"), ("text", .jstr "hi"),
    ("voice", .jstr "af_heart"), ("lang_code", .jstr "a"),
    ("output_path", .jstr "out.wav")])

/-- A concrete `ping` request line. -/
def pingLine : InLine := .val (.jobj [("action", .jstr "ping")])

/-- Construct-once invariant of the pipeline cache: every language code
has been attempted at most once by the constructor, and codes not present
in the cache have never been attempted (meaningful when the constructor
never fails, so every attempt stores its handle). -/
def cacheInv (s : SState) : Prop :=
  ∀ c : JVal,
    s.constructions.countP (fun x => scalarKeyEq x c) ≤ 1
    ∧ (klookup s.pipelines c = none →
        s.constructions.countP (fun x => scalarKeyEq x c) = 0)

theorem digitChar_ne_nl (n : Nat) : digitChar n ≠ nlChar := by
  unfold digitChar nlChar
  split <;> decide

theorem hexDigitChar_ne_nl (n : Nat) : hexDigitChar n ≠ nlChar := by
  unfold hexDigitChar nlChar
  split <;> decide

theorem hex4_nl (n : Nat) : nlChar ∉ hex4 n := by
  simp [hex4, List.mem_cons]
  exact ⟨(hexDigitChar_ne_nl _).symm, (hexDigitChar_ne_nl _).symm,
    (hexDigitChar_ne_nl _).symm, (hexDigitChar_ne_nl _).symm⟩

theorem escChar_nl (c : Char) : nlChar ∉ escChar c := by
  unfold escChar
  split_ifs with h1 h2 h3 h4 h5 h6 h7 h8
  · decide
  · decide
  · decide
  · decide
  · decide
  · decide
  · decide
  · intro hmem
    simp only [List.mem_cons] at hmem
    rcases hmem with h | h | h
    · exact absurd h (by decide)
    · exact absurd h (by decide)
    · exact hex4_nl _ h
  · simp only [List.mem_singleton]
    intro heq
    rw [← heq] at h8
    exact h8 (Or.inl (by decide))

theorem escStrL_nl (s : String) : nlChar ∉ escStrL s := by
  intro hmem
  unfold escStrL at hmem
  rcases List.mem_cons.mp hmem with h | h
  · exact absurd h (by decide)
  · rcases List.mem_append.mp h with h2 | h2
    · rcases List.mem_flatten.mp h2 with ⟨l, hl, hmem2⟩
      rcases List.mem_map.mp hl with ⟨c, _, hc⟩
      exact escChar_nl c (hc ▸ hmem2)
    · exact absurd (List.mem_singleton.mp h2) (by decide)

theorem natDigitsAux_nl (fuel n : Nat) : nlChar ∉ natDigitsAux fuel n := by
  induction fuel generalizing n with
  | zero => simp [natDigitsAux]
  | succ fuel ih =>
    simp only [natDigitsAux]
    split
    · simp only [List.mem_singleton]
      exact fun h => digitChar_ne_nl n h.symm
    · intro hmem
      rcases List.mem_append.mp hmem with h | h
      · exact ih _ h
      · exact digitChar_ne_nl n (List.mem_singleton.mp h).symm

theorem natDigits_nl (n : Nat) : nlChar ∉ natDigits n := natDigitsAux_nl _ _

theorem intReprL_nl (i : Int) : nlChar ∉ intReprL i := by
  unfold intReprL
  split
  · intro hmem
    rcases List.mem_cons.mp hmem with h | h
    · exact absurd h (by decide)
    · exact natDigits_nl _ h
  · exact natDigits_nl _

theorem fracDigitsL_nl (fuel r d : Nat) : nlChar ∉ fracDigitsL fuel r d := by
  induction fuel generalizing r with
  | zero => simp [fracDigitsL]
  | succ fuel ih =>
    simp only [fracDigitsL]
    intro hmem
    rcases List.mem_cons.mp hmem with h | h
    · exact digitChar_ne_nl _ h.symm
    · exact ih _ h

theorem trimZeros_nl (l : List Char) (h : nlChar ∉ l) : nlChar ∉ trimZeros l := by
  unfold trimZeros
  split
  · decide
  · intro hmem
    rw [List.mem_reverse] at hmem
    have hsub := (List.dropWhile_sublist
      (l := l.reverse) (fun c => c == Char.ofNat 48)).mem hmem
    exact h (List.mem_reverse.mp hsub)

theorem floatReprL_nl (q : ℚ) : nlChar ∉ floatReprL q := by
  unfold floatReprL
  intro hmem
  simp only [List.mem_append, List.mem_cons] at hmem
  rcases hmem with (h | h) | h | h
  · revert h
    split
    · decide
    · simp
  · exact natDigits_nl _ h
  · exact absurd h (by decide)
  · revert h
    split
    · decide
    · exact fun h =>
        trimZeros_nl _ (fracDigitsL_nl _ _ _) h

theorem dumpsArr_nl_of (xs : List JVal) (h : ∀ x ∈ xs, nlChar ∉ dumpsL x) :
    nlChar ∉ dumpsArr xs := by
  induction xs with
  | nil => simp [dumpsArr]
  | cons x xs ih =>
    have hx := h x (List.mem_cons_self x xs)
    have hxs := ih fun y hy => h y (List.mem_cons_of_mem x hy)
    intro hmem
    simp only [dumpsArr, List.mem_append] at hmem
    rcases hmem with (h1 | h1) | h1
    · exact hx h1
    · revert h1
      split <;> decide
    · exact hxs h1

theorem dumpsObj_nl_of (kvs : List (String × JVal))
    (h : ∀ kv ∈ kvs, nlChar ∉ dumpsL kv.2) : nlChar ∉ dumpsObj kvs := by
  induction kvs with
  | nil => simp [dumpsObj]
  | cons kv rest ih =>
    have hv := h kv (List.mem_cons_self kv rest)
    have hrest := ih fun y hy => h y (List.mem_cons_of_mem kv hy)
    intro hmem
    obtain ⟨k, v⟩ := kv
    simp only [dumpsObj, List.mem_append, List.mem_cons] at hmem
    rcases hmem with ((h1 | h1 | h1 | h1) | h1) | h1
    · exact escStrL_nl k h1
    · exact absurd h1 (by decide)
    · exact absurd h1 (by decide)
    · exact hv h1
    · revert h1
      split <;> decide
    · exact hrest h1

theorem dumpsL_nl (v : JVal) : nlChar ∉ dumpsL v := by
  suffices H : ∀ n (v : JVal), sizeOf v = n → nlChar ∉ dumpsL v from
    H (sizeOf v) v rfl
  intro n
  induction n using Nat.strong_induction_on with
  | _ n ih =>
    intro v hv
    cases v with
    | jnull => simp only [dumpsL]; decide
    | jbool b => cases b <;> (simp only [dumpsL]; decide)
    | jint i => simp only [dumpsL]; exact intReprL_nl i
    | jfloat q => simp only [dumpsL]; exact floatReprL_nl q
    | jstr s => simp only [dumpsL]; exact escStrL_nl s
    | jarr xs =>
      have hx : ∀ x ∈ xs, nlChar ∉ dumpsL x := by
        intro x hxmem
        have h1 : sizeOf x < sizeOf (JVal.jarr xs) := by
          have h2 := List.sizeOf_lt_of_mem hxmem
          simp only [JVal.jarr.sizeOf_spec]
          omega
        exact ih (sizeOf x) (hv ▸ h1) x rfl
      intro hmem
      simp only [dumpsL, List.mem_cons, List.mem_append,
        List.mem_singleton] at hmem
      rcases hmem with (h | h) | h
      · exact absurd h (by decide)
      · exact dumpsArr_nl_of xs hx h
      · exact absurd h (by decide)
    | jobj kvs =>
      have hx : ∀ kv ∈ kvs, nlChar ∉ dumpsL kv.2 := by
        intro kv hkvmem
        have h1 : sizeOf kv.2 < sizeOf (JVal.jobj kvs) := by
          have h2 := List.sizeOf_lt_of_mem hkvmem
          obtain ⟨k, v2⟩ := kv
          simp only [JVal.jobj.sizeOf_spec]
          simp only [Prod.mk.sizeOf_spec] at h2
          omega
        exact ih (sizeOf kv.2) (hv ▸ h1) kv.2 rfl
      intro hmem
      simp only [dumpsL, List.mem_cons, List.mem_append,
        List.mem_singleton] at hmem
      rcases hmem with (h | h) | h
      · exact absurd h (by decide)
      · exact dumpsObj_nl_of kvs hx h
      · exact absurd h (by decide)

/-- No response line produced by `json.dumps` contains a newline: every
response is single-line. -/
theorem dumps_single_line (v : JVal) : nlChar ∉ (dumps v).data := dumpsL_nl v

theorem get_pipeline_out (env : Env) (s : SState) (l : JVal) :
    (get_pipeline env s l).2.out = s.out := by
  unfold get_pipeline
  split
  · split
    · rfl
    · split <;> rfl
  · rfl

theorem generate_audio_out (env : Env) (s : SState) (t v l p : JVal) :
    (generate_audio env s t v l p).2.out = s.out := by
  unfold generate_audio
  split
  · rename_i s1 heq
    have := get_pipeline_out env s l
    rw [heq] at this
    exact this
  · rename_i h s1 heq
    have hgp := get_pipeline_out env s l
    rw [heq] at hgp
    split
    · exact hgp
    · split
      · exact hgp
      · split
        · exact hgp
        · exact hgp

theorem generate_audio_emitted (env : Env) (s : SState) (t v l p : JVal) :
    Emitted (generate_audio env s t v l p).1 := by
  unfold generate_audio
  split
  · exact Emitted.fail _
  · split
    · exact Emitted.fail _
    · split
      · exact Emitted.fail _
      · split
        · exact Emitted.fail _
        · exact Emitted.ok _ _

theorem dispatch_out (env : Env) (s : SState) (l : InLine) :
    (stepState (dispatch env s l)).out = s.out
    ∨ ∃ r, Emitted r
        ∧ (stepState (dispatch env s l)).out = s.out ++ [dumps r] := by
  cases l with
  | blank => exact Or.inl rfl
  | badJson raw => exact Or.inr ⟨_, Emitted.invalid, rfl⟩
  | val v =>
    cases v with
    | jobj command =>
      simp only [dispatch]
      split
      · split
        · exact Or.inr ⟨_, Emitted.missing, rfl⟩
        · refine Or.inr ⟨(generate_audio env s (vget command "text")
            (vget command "voice") (vget command "lang_code")
            (vget command "output_path")).1,
            generate_audio_emitted env s _ _ _ _, ?_⟩
          simp only [stepState, emitOut]
          rw [generate_audio_out]
      · split
        · exact Or.inr ⟨_, Emitted.pong, rfl⟩
        · split
          · exact Or.inl rfl
          · exact Or.inr ⟨_, Emitted.unknown, rfl⟩
    | jnull => exact Or.inl rfl
    | jbool b => exact Or.inl rfl
    | jint i => exact Or.inl rfl
    | jfloat q => exact Or.inl rfl
    | jstr s2 => exact Or.inl rfl
    | jarr xs => exact Or.inl rfl

theorem runLoop_out (env : Env) (lines : List InLine) (s : SState)
    (o : String) (ho : o ∈ (runLoop env s lines).out) :
    o ∈ s.out ∨ ∃ r, Emitted r ∧ o = dumps r := by
  induction lines generalizing s with
  | nil => exact Or.inl ho
  | cons l rest ih =>
    have hstep : o ∈ (stepState (dispatch env s l)).out
        ∨ ∃ r, Emitted r ∧ o = dumps r := by
      simp only [runLoop] at ho
      cases hd : dispatch env s l with
      | cont s1 =>
        rw [hd] at ho
        rcases ih s1 ho with h | h
        · exact Or.inl h
        · exact Or.inr h
      | brk s1 =>
        rw [hd] at ho
        exact Or.inl ho
      | exn s1 e =>
        rw [hd] at ho
        exact Or.inl ho
    rcases hstep with h | h
    · rcases dispatch_out env s l with h1 | ⟨r, hr, h1⟩
      · exact Or.inl (h1 ▸ h)
      · rw [h1] at h
        rcases List.mem_append.mp h with h2 | h2
        · exact Or.inl h2
        · exact Or.inr ⟨r, hr, List.mem_singleton.mp h2⟩
    · exact Or.inr h

theorem server_out_emitted (env : Env) (lines : List InLine) (o : String)
    (ho : o ∈ (runLoop env initState lines).out) :
    ∃ r, Emitted r ∧ o = dumps r := by
  rcases runLoop_out env lines initState o ho with h | h
  · exact absurd h (by simp [initState])
  · exact h

theorem helper_out_cases (env : HEnv) (argv : List String) :
    (helper_main env argv).out = []
    ∨ ∃ p d, (helper_main env argv).out
        = [dumps (successResp (.jstr p) d)] := by
  unfold helper_main
  split
  · exact Or.inl rfl
  · split
    · exact Or.inl rfl
    · rename_i output_path hpath
      dsimp only
      cases env.constructResult ((argv[3]?).getD "") with
      | some e => exact Or.inl rfl
      | none =>
        cases env.runResult ((argv[1]?).getD "") ((argv[2]?).getD "")
            ((argv[3]?).getD "") with
        | error e => exact Or.inl rfl
        | ok segs =>
          dsimp only
          cases hseg : segs.isEmpty with
          | true => exact Or.inl rfl
          | false =>
            cases env.writeResult output_path with
            | some e => exact Or.inl rfl
            | none => exact Or.inr ⟨output_path, _, rfl⟩

theorem emitted_shape (r : JVal) (h : Emitted r) : respShapeOk r := by
  cases h with
  | invalid => exact Or.inr ⟨rfl, _, rfl⟩
  | missing => exact Or.inr ⟨rfl, _, rfl⟩
  | unknown => exact Or.inr ⟨rfl, _, rfl⟩
  | pong => exact Or.inl ⟨rfl, rfl⟩
  | ok p d => exact Or.inl ⟨rfl, rfl⟩
  | fail e => exact Or.inr ⟨rfl, _, rfl⟩

/-- C4: every line ever written to the primary output channel, in server
and one-shot mode alike, is the single-line (newline-free) `json.dumps`
rendering of one JSON value; in one-shot mode whatever the model wrote
while the shim had the streams redirected is discarded, and the helper's
real stdout carries at most the single JSON success result, printed after
the original streams are restored. -/
theorem c4_primary_channel_json :
    (∀ (env : Env) (lines : List InLine) (o : String),
        o ∈ (runLoop env initState lines).out →
        ∃ r : JVal, o = dumps r ∧ nlChar ∉ o.data)
  ∧ (∀ (env : HEnv) (argv : List String) (o : String),
        o ∈ (helper_main env argv).out →
        ∃ r : JVal, o = dumps r ∧ nlChar ∉ o.data)
  ∧ (∀ (env : HEnv) (argv : List String),
        (helper_main env argv).out = []
        ∨ ∃ p d, (helper_main env argv).out
            = [dumps (successResp (.jstr p) d)]) := by
  refine ⟨?_, ?_, helper_out_cases⟩
  · intro env lines o ho
    obtain ⟨r, _, hr⟩ := server_out_emitted env lines o ho
    exact ⟨r, hr, hr ▸ dumps_single_line r⟩
  · intro env argv o ho
    rcases helper_out_cases env argv with h | ⟨p, d, h⟩
    · rw [h] at ho
      exact absurd ho (List.not_mem_nil o)
    · rw [h] at ho
      have heq := List.mem_singleton.mp ho
      exact ⟨_, heq, heq ▸ dumps_single_line _⟩

/-- C4 witness: the pong answer to a concrete ping is a newline-free JSON
line on the server's stdout. -/
theorem c4_witness :
    dumps pongResp ∈ (runLoop env0 initState [pingLine]).out
    ∧ ∃ r : JVal, dumps pongResp = dumps r
        ∧ nlChar ∉ (dumps pongResp).data :=
  ⟨List.mem_singleton.mpr rfl,
   c4_primary_channel_json.1 env0 [pingLine] (dumps pongResp)
     (List.mem_singleton.mpr rfl)⟩

/-- C8: every response emitted on a primary output channel has exactly one
of the two shapes: success true without an error field, or success false
with a string error; never both. -/
theorem c8_response_shapes :
    (∀ (env : Env) (lines : List InLine) (o : String),
        o ∈ (runLoop env initState lines).out →
        ∃ r : JVal, o = dumps r ∧ respShapeOk r)
  ∧ (∀ (env : HEnv) (argv : List String) (o : String),
        o ∈ (helper_main env argv).out →
        ∃ r : JVal, o = dumps r ∧ respShapeOk r) := by
  constructor
  · intro env lines o ho
    obtain ⟨r, hem, hr⟩ := server_out_emitted env lines o ho
    exact ⟨r, hr, emitted_shape r hem⟩
  · intro env argv o ho
    rcases helper_out_cases env argv with h | ⟨p, d, h⟩
    · rw [h] at ho
      exact absurd ho (List.not_mem_nil o)
    · rw [h] at ho
      exact ⟨_, List.mem_singleton.mp ho, emitted_shape _ (Emitted.ok _ _)⟩

/-- C8 witness: the concrete pong response is well-shaped. -/
theorem c8_witness :
    dumps pongResp ∈ (runLoop envNoAudio initState [pingLine]).out
    ∧ ∃ r : JVal, dumps pongResp = dumps r ∧ respShapeOk r :=
  ⟨List.mem_singleton.mpr rfl,
   c8_response_shapes.1 envNoAudio [pingLine] (dumps pongResp)
     (List.mem_singleton.mpr rfl)⟩

/-- C9: an `exit` request is answered with no response line (the dispatch
breaks with the state unchanged), and the loop never processes any line
that follows it. -/
theorem c9_exit_stops_loop (env : Env) (s : SState)
    (command : List (String × JVal)) (pre post : List InLine)
    (hexit : jlookup command "action" = some (.jstr "exit")) :
    dispatch env s (.val (.jobj command)) = .brk s
    ∧ runLoop env s (pre ++ .val (.jobj command) :: post)
        = runLoop env s (pre ++ [.val (.jobj command)]) := by
  have hdisp : ∀ s1 : SState,
      dispatch env s1 (.val (.jobj command)) = .brk s1 := by
    intro s1
    simp only [dispatch, isAction, hexit]
    rfl
  refine ⟨hdisp s, ?_⟩
  induction pre generalizing s with
  | nil =>
    rw [List.nil_append, List.nil_append]
    simp only [runLoop, hdisp s]
  | cons l pre ih =>
    rw [List.cons_append, List.cons_append]
    simp only [runLoop]
    cases hd : dispatch env s l with
    | cont s1 => exact ih s1
    | brk s1 => rfl
    | exn s1 e => rfl

/-- C9 witness: a concrete exit request breaks the loop and the trailing
ping is never processed. -/
theorem c9_witness :
    dispatch env0 initState (.val (.jobj [("action", .jstr "exit")]))
      = .brk initState
    ∧ runLoop env0 initState
        ([] ++ .val (.jobj [("action", .jstr "exit")]) :: [pingLine])
      = runLoop env0 initState
        ([] ++ [.val (.jobj [("action", .jstr "exit")])]) :=
  c9_exit_stops_loop env0 initState [("action", .jstr "exit")] [] [pingLine]
    rfl

/-- C7: a `generate` request with a required field absent (or present but
the empty string) is answered with exactly the missing-parameters failure;
the loop continues and the state is otherwise untouched — in particular the
pipeline cache is not consulted and the synthesis adapter not invoked. -/
theorem c7_missing_params (env : Env) (s : SState)
    (command : List (String × JVal))
    (hact : jlookup command "action" = some (.jstr "generate"))
    (hmiss : ∃ f ∈ ["text", "voice", "lang_code", "output_path"],
        vget command f = JVal.jnull ∨ vget command f = .jstr "") :
    dispatch env s (.val (.jobj command))
      = .cont { s with out := s.out ++ [dumps missingParamsResp] } := by
  have hfalsy : ∀ f, (vget command f = JVal.jnull
      ∨ vget command f = .jstr "") → truthy (vget command f) = false := by
    intro f hf
    rcases hf with h | h <;> rw [h] <;> rfl
  have hcond : (truthy (vget command "text") && truthy (vget command "voice")
      && truthy (vget command "lang_code")
      && truthy (vget command "output_path")) = false := by
    obtain ⟨f, hfmem, hf⟩ := hmiss
    have hv := hfalsy f hf
    fin_cases hfmem <;> simp_all
  simp only [dispatch, isAction, hact, hcond]
  rfl

/-- C7 witness: a concrete generate request missing its voice field gets
the missing-parameters response and the loop state is otherwise unchanged. -/
theorem c7_witness :
    dispatch env0 initState
      (.val (.jobj [("action", .jstr "generate"), ("text", .jstr "hi")]))
      = .cont { initState with
          out := initState.out ++ [dumps missingParamsResp] } :=
  c7_missing_params env0 initState
    [("action", .jstr "generate"), ("text", .jstr "hi")] rfl
    ⟨"voice", by decide, Or.inl rfl⟩

theorem get_pipeline_writeAttempts (env : Env) (s : SState) (l : JVal) :
    (get_pipeline env s l).2.writeAttempts = s.writeAttempts := by
  unfold get_pipeline
  split
  · split
    · rfl
    · split <;> rfl
  · rfl

theorem get_pipeline_files (env : Env) (s : SState) (l : JVal) :
    (get_pipeline env s l).2.files = s.files := by
  unfold get_pipeline
  split
  · split
    · rfl
    · split <;> rfl
  · rfl

/-- C5: a `generate` invocation whose model run yields chunks totaling
N > 0 samples succeeds: the response reports `duration = N / 24000`
(`len(full_audio) / 24000.0`, a float modelled as the exact rational) and
`sample_rate = 24000` (inside `successResp`), and the artifact is recorded
for the requested path at 24000 Hz holding exactly the chunks concatenated
in arrival order (`audio_segments.flatten`). -/
theorem c5_duration_and_artifact (env : Env) (s s1 : SState)
    (t v lang p : JVal) (h : Nat) (segs : List (List Int))
    (hp : get_pipeline env s lang = (.ok h, s1))
    (hr : env.runResult h t v = .ok segs)
    (hne : segs ≠ [])
    (hN : 0 < segs.flatten.length)
    (hw : env.writeResult p = none) :
    generate_audio env s t v lang p
      = (successResp p ((segs.flatten.length : ℚ) / 24000),
         { s1 with
           writeAttempts := s1.writeAttempts ++ [p],
           files := s1.files ++ [(p, segs.flatten, 24000)] }) := by
  have hemp : segs.isEmpty = false := by
    cases segs with
    | nil => exact absurd rfl hne
    | cons a as => rfl
  simp only [generate_audio, hp, hr, hemp, hw]
  rfl

/-- C5 witness: two chunks of 2 and 1 samples give duration 3/24000 and an
artifact holding the three samples in order. -/
theorem c5_witness :
    (generate_audio env0 initState (.jstr "hi") (.jstr "af_heart")
        (.jstr "a") (.jstr "out.wav")).1
      = successResp (.jstr "out.wav")
          ((([[1, 2], [3]] : List (List Int)).flatten.length : ℚ) / 24000) := by
  rw [c5_duration_and_artifact env0 initState
    ⟨[((JVal.jstr "a"), 0)], 1, [JVal.jstr "a"], [], [], [], []⟩
    (.jstr "hi") (.jstr "af_heart") (.jstr "a") (.jstr "out.wav") 0
    [[1, 2], [3]] rfl rfl (by decide) (by decide) rfl]

/-- C6: when the model's lazy sequence yields zero chunks, the result is
the `No audio generated` failure — not a success with empty audio — and the
audio encoder is never invoked, so no file is recorded; this holds in
server mode and in one-shot mode (where the process additionally exits 1
with the JSON error on the diagnostic stream). -/
theorem c6_empty_synthesis (env : Env) (henv : HEnv) :
    (∀ (s s1 : SState) (t v lang p : JVal) (h : Nat),
        get_pipeline env s lang = (.ok h, s1) →
        env.runResult h t v = .ok [] →
        generate_audio env s t v lang p = (failResp "No audio generated", s1)
          ∧ s1.writeAttempts = s.writeAttempts
          ∧ s1.files = s.files)
  ∧ (∀ (argv : List String) (output_path : String),
        ¬ argv.length < 4 →
        argv[4]? = some output_path →
        henv.constructResult ((argv[3]?).getD "") = none →
        henv.runResult ((argv[1]?).getD "") ((argv[2]?).getD "")
          ((argv[3]?).getD "") = .ok [] →
        helper_main henv argv
          = ⟨.exited 1, [],
             (if henv.capturedErr == "" then [] else [henv.capturedErr])
               ++ [dumps (failResp "No audio generated")], [], []⟩) := by
  constructor
  · intro s s1 t v lang p h hp hr
    refine ⟨?_, ?_, ?_⟩
    · simp only [generate_audio, hp, hr]
      rfl
    · have := get_pipeline_writeAttempts env s lang
      rw [hp] at this
      exact this
    · have := get_pipeline_files env s lang
      rw [hp] at this
      exact this
  · intro argv output_path hlen hpath hc hr
    unfold helper_main
    rw [if_neg hlen, hpath]
    dsimp only
    rw [hc, hr]
    rfl

/-- C6 witness: a concrete run with a zero-chunk model yields the
no-audio failure response. -/
theorem c6_witness :
    (generate_audio envNoAudio initState (.jstr "hi") (.jstr "af_heart")
        (.jstr "a") (.jstr "out.wav")).1 = failResp "No audio generated" := by
  rw [((c6_empty_synthesis envNoAudio henvNoAudio).1 initState
    ⟨[((JVal.jstr "a"), 0)], 1, [JVal.jstr "a"], [], [], [], []⟩
    (.jstr "hi") (.jstr "af_heart") (.jstr "a") (.jstr "out.wav") 0
    rfl rfl).1]

/-- Every serialized JSON object starts with an opening brace; hence a
diagnostic line starting with any other character is not the serialization
of a JSON object. -/
theorem dumps_jobj_head (kvs : List (String × JVal)) :
    (dumps (.jobj kvs)).data.head? = some lbraceChar := by
  simp [dumps, dumpsL]

/-- C1 counterexample: the line holding the valid JSON value `5` — which is
not an object — does not produce an error response line on the primary
channel and does not let the loop continue: the `command.get` attribute
error escapes to the top-level handler, which writes one record to the
diagnostic stream and terminates the loop, so the following ping is never
answered and stdout stays empty. -/
theorem c1_counterexample :
    runLoop env0 initState [.val (.jint 5), pingLine]
      = { initState with err := [dumps (failResp (attrMsg (.jint 5)))] } :=
  rfl

/-- C1 (amended): an unparseable line yields the invalid-JSON response and
the loop continues; a parsed object with no `action` field yields the
unknown-action response and the loop continues; a generate object with a
falsy required field yields the missing-parameters response and the loop
continues; but a line holding a valid JSON value that is not an object
raises an `AttributeError` that escapes dispatch — the top-level handler
writes one error record to the diagnostic stream (not the primary channel)
and the loop terminates, processing no further input. -/
theorem c1_amended (env : Env) (s : SState) (raw : String)
    (rest : List InLine) :
    (runLoop env s (.badJson raw :: rest)
        = runLoop env (emitOut s invalidJsonResp) rest)
  ∧ (∀ command, jlookup command "action" = none →
        runLoop env s (.val (.jobj command) :: rest)
          = runLoop env (emitOut s unknownActionResp) rest)
  ∧ (∀ command, jlookup command "action" = some (.jstr "generate") →
        truthy (vget command "text") = false →
        runLoop env s (.val (.jobj command) :: rest)
          = runLoop env (emitOut s missingParamsResp) rest)
  ∧ (∀ v : JVal, (∀ kvs, v ≠ .jobj kvs) →
        runLoop env s (.val v :: rest)
          = { s with err := s.err ++ [dumps (failResp (attrMsg v))] }) := by
  refine ⟨rfl, ?_, ?_, ?_⟩
  · intro command hact
    simp only [runLoop, dispatch, isAction, hact]
    rfl
  · intro command hact htext
    simp only [runLoop, dispatch, isAction, hact, htext]
    rfl
  · intro v hv
    cases v with
    | jobj kvs => exact absurd rfl (hv kvs)
    | jnull => rfl
    | jbool b => rfl
    | jint i => rfl
    | jfloat q => rfl
    | jstr s2 => rfl
    | jarr xs => rfl

/-- C1 witness: a concrete string line (valid JSON, not an object)
terminates the loop with one diagnostic record. -/
theorem c1_amended_witness :
    runLoop env0 initState [.val (.jstr "oops")]
      = { initState with
          err := initState.err ++ [dumps (failResp (attrMsg (.jstr "oops")))] } :=
  (c1_amended env0 initState "" []).2.2.2 (.jstr "oops")
    (fun _ hk => JVal.noConfusion hk)

/-- C3 counterexample: invoking the helper with no positional arguments at
all is a failing one-shot invocation (exit status 1, nothing on the primary
stream), yet what it writes to the diagnostic stream is the plain-text
usage message, whose first character is `E` — not the opening brace that
every serialized JSON object starts with (`dumps_jobj_head`) — so no JSON
error object is written. -/
theorem c3_counterexample :
    helper_main henv0 ["kokoro_python_helper.py"]
      = ⟨.exited 1, [], [usageMsg], [], []⟩
    ∧ usageMsg.data.head? = some (Char.ofNat 69) :=
  ⟨rfl, by decide⟩

/-- With the argument-count guard passed and an output path present, the
helper either exits 0 or fails with exit status 1, an empty primary
stream, and a JSON error object as the last diagnostic record. -/
theorem helper_failure_shape (env : HEnv) (argv : List String)
    (hlt : ¬ argv.length < 4) (path : String)
    (hpath : argv[4]? = some path) :
    (helper_main env argv).hexit = .exited 0
    ∨ ((helper_main env argv).hexit = .exited 1
       ∧ (helper_main env argv).out = []
       ∧ ∃ e pre, (helper_main env argv).err
           = pre ++ [dumps (failResp e)]) := by
  unfold helper_main
  rw [if_neg hlt, hpath]
  dsimp only
  cases env.constructResult ((argv[3]?).getD "") with
  | some e => exact Or.inr ⟨rfl, rfl, e, _, rfl⟩
  | none =>
    cases env.runResult ((argv[1]?).getD "") ((argv[2]?).getD "")
        ((argv[3]?).getD "") with
    | error e => exact Or.inr ⟨rfl, rfl, e, _, rfl⟩
    | ok segs =>
      dsimp only
      cases segs.isEmpty with
      | true => exact Or.inr ⟨rfl, rfl, "No audio generated", _, rfl⟩
      | false =>
        cases env.writeResult path with
        | some e => exact Or.inr ⟨rfl, rfl, e, _, rfl⟩
        | none => exact Or.inl rfl

/-- C3 (amended): a one-shot invocation supplying at least the four
required positional values that fails does write a JSON error object to
the diagnostic stream, exits with non-zero status, and writes nothing to
the primary stream; but an invocation with fewer than three positional
arguments writes the plain-text usage message (not a JSON object) to the
diagnostic stream and exits 1, and one with exactly three positional
arguments crashes with an uncaught IndexError (the `len(sys.argv) < 4`
guard is off by one with respect to the `sys.argv[4]` access). -/
theorem c3_amended (env : HEnv) (argv : List String) :
    (∀ c : Nat, 5 ≤ argv.length → (helper_main env argv).hexit = .exited c →
        c ≠ 0 →
        (helper_main env argv).out = []
        ∧ ∃ e2 pre, (helper_main env argv).err = pre ++ [dumps (failResp e2)])
  ∧ (argv.length < 4 →
        helper_main env argv = ⟨.exited 1, [], [usageMsg], [], []⟩)
  ∧ (argv.length = 4 →
        (helper_main env argv).hexit = .crashed indexErrMsg) := by
  refine ⟨?_, ?_, ?_⟩
  · intro c hlen hex hc
    have hlt : ¬ argv.length < 4 := by omega
    have h4 : 4 < argv.length := by omega
    obtain ⟨path, hpath⟩ : ∃ path, argv[4]? = some path := by
      cases hp : argv[4]? with
      | some p => exact ⟨p, rfl⟩
      | none =>
        rw [List.getElem?_eq_none_iff] at hp
        omega
    rcases helper_failure_shape env argv hlt path hpath with h | h
    · rw [hex] at h
      injection h with h0
      exact absurd h0 hc
    · exact ⟨h.2.1, h.2.2⟩
  · intro hlt
    unfold helper_main
    rw [if_pos hlt]
  · intro h4
    have hlt : ¬ argv.length < 4 := by omega
    have hnone : argv[4]? = none := List.getElem?_eq_none (by omega)
    unfold helper_main
    rw [if_neg hlt, hnone]

/-- C3 witness: a concrete failing invocation with four positional
arguments (zero-chunk model) leaves the primary stream empty and ends the
diagnostic stream with a JSON error object. -/
theorem c3_witness :
    (helper_main henvNoAudio ["helper.py", "hi", "af_heart", "a",
       "out.wav"]).out = []
    ∧ ∃ e2 pre, (helper_main henvNoAudio ["helper.py", "hi", "af_heart", "a",
        "out.wav"]).err = pre ++ [dumps (failResp e2)] :=
  (c3_amended henvNoAudio ["helper.py", "hi", "af_heart", "a", "out.wav"]).1
    1 (by decide) rfl (by decide)

theorem scalarKeyEq_eq {a b : JVal} (h : scalarKeyEq a b = true) : a = b := by
  cases a <;> cases b <;> simp_all [scalarKeyEq]

theorem scalarKeyEq_hashable {a b : JVal} (h : scalarKeyEq a b = true) :
    hashable b = true := by
  cases a <;> cases b <;> simp_all [scalarKeyEq, hashable]

theorem klookup_append (pl : List (JVal × Nat)) (k : JVal) (e : JVal × Nat) :
    klookup (pl ++ [e]) k
      = (klookup pl k).or
          (if scalarKeyEq e.1 k then some e.2 else none) := by
  simp only [klookup, List.find?_append]
  cases hf : pl.find? (fun x => scalarKeyEq x.1 k) with
  | some x => rfl
  | none =>
    cases hke : scalarKeyEq e.1 k <;>
      simp [List.find?, hke]

theorem cacheInv_of_eq {s1 s2 : SState} (hp : s2.pipelines = s1.pipelines)
    (hc : s2.constructions = s1.constructions) (h : cacheInv s1) :
    cacheInv s2 := by
  intro c
  rw [hp, hc]
  exact h c

theorem get_pipeline_inv (env : Env)
    (hok : ∀ k l, env.constructResult k l = none)
    (s : SState) (lang : JVal) (hinv : cacheInv s) :
    cacheInv (get_pipeline env s lang).2 := by
  unfold get_pipeline
  split
  · rename_i hhash
    cases hl : klookup s.pipelines lang with
    | some h => exact hinv
    | none =>
      rw [hok s.constructions.length lang]
      intro c
      constructor
      · rw [List.countP_append]
        cases hkeq : scalarKeyEq lang c with
        | false => simpa [List.countP_cons, hkeq] using (hinv c).1
        | true =>
          have hc0 : s.constructions.countP (fun x => scalarKeyEq x c) = 0 :=
            (hinv c).2 (by rwa [← scalarKeyEq_eq hkeq])
          simp [List.countP_cons, hkeq, hc0]
      · intro hnone
        rw [klookup_append] at hnone
        have hboth : klookup s.pipelines c = none
            ∧ scalarKeyEq lang c = false := by
          cases hkl : klookup s.pipelines c with
          | some x => rw [hkl] at hnone; simp [Option.or] at hnone
          | none =>
            rw [hkl] at hnone
            cases hkeq : scalarKeyEq lang c with
            | true => rw [hkeq] at hnone; simp [Option.or] at hnone
            | false => exact ⟨rfl, rfl⟩
        rw [List.countP_append]
        have h0 := (hinv c).2 hboth.1
        simp [List.countP_cons, hboth.2, h0]
  · exact hinv

theorem generate_audio_inv (env : Env)
    (hok : ∀ k l, env.constructResult k l = none)
    (s : SState) (t v lang p : JVal) (hinv : cacheInv s) :
    cacheInv (generate_audio env s t v lang p).2 := by
  have hgp := get_pipeline_inv env hok s lang hinv
  unfold generate_audio
  split
  · rename_i e s1 heq
    rw [heq] at hgp
    exact hgp
  · rename_i h s1 heq
    rw [heq] at hgp
    split
    · exact hgp
    · split
      · exact hgp
      · split
        · exact cacheInv_of_eq rfl rfl hgp
        · exact cacheInv_of_eq rfl rfl hgp

theorem dispatch_inv (env : Env)
    (hok : ∀ k l, env.constructResult k l = none)
    (s : SState) (l : InLine) (hinv : cacheInv s) :
    cacheInv (stepState (dispatch env s l)) := by
  cases l with
  | blank => exact hinv
  | badJson raw => exact cacheInv_of_eq rfl rfl hinv
  | val v =>
    cases v with
    | jobj command =>
      simp only [dispatch]
      split
      · split
        · exact cacheInv_of_eq rfl rfl hinv
        · exact cacheInv_of_eq rfl rfl
            (generate_audio_inv env hok s _ _ _ _ hinv)
      · split
        · exact cacheInv_of_eq rfl rfl hinv
        · split
          · exact hinv
          · exact cacheInv_of_eq rfl rfl hinv
    | jnull => exact hinv
    | jbool b => exact hinv
    | jint i => exact hinv
    | jfloat q => exact hinv
    | jstr s2 => exact hinv
    | jarr xs => exact hinv

theorem runLoop_inv (env : Env)
    (hok : ∀ k l, env.constructResult k l = none)
    (lines : List InLine) (s : SState) (hinv : cacheInv s) :
    cacheInv (runLoop env s lines) := by
  induction lines generalizing s with
  | nil => exact hinv
  | cons l rest ih =>
    simp only [runLoop]
    cases hd : dispatch env s l with
    | cont s1 =>
      have hstep := dispatch_inv env hok s l hinv
      rw [hd] at hstep
      exact ih s1 hstep
    | brk s1 =>
      have hstep := dispatch_inv env hok s l hinv
      rw [hd] at hstep
      exact hstep
    | exn s1 e =>
      have hstep := dispatch_inv env hok s l hinv
      rw [hd] at hstep
      exact cacheInv_of_eq rfl rfl hstep

/-- C2: when pipeline construction never fails, any run of the server loop
invokes the constructor at most once per distinct language code; and
whenever a handle for a code is already cached, `get_pipeline` returns
exactly that stored handle with the state unchanged — no reconstruction,
no new constructor invocation. -/
theorem c2_construct_once (env : Env)
    (hok : ∀ k l, env.constructResult k l = none) :
    (∀ (lines : List InLine) (c : JVal),
        (runLoop env initState lines).constructions.countP
          (fun x => scalarKeyEq x c) ≤ 1)
  ∧ (∀ (s : SState) (c : JVal) (h : Nat),
        klookup s.pipelines c = some h →
        get_pipeline env s c = (.ok h, s)) := by
  constructor
  · intro lines c
    have hinit : cacheInv initState := by
      intro c0
      exact ⟨by simp [initState], fun _ => by simp [initState]⟩
    exact ((runLoop_inv env hok lines initState hinit) c).1
  · intro s c h hk
    have hhash : hashable c = true := by
      simp only [klookup] at hk
      cases hf : s.pipelines.find? (fun e => scalarKeyEq e.1 c) with
      | none => rw [hf] at hk; simp at hk
      | some x =>
        have hpx : scalarKeyEq x.1 c = true := by
          have hsome := List.find?_some hf
          simpa using hsome
        exact scalarKeyEq_hashable hpx
    unfold get_pipeline
    rw [if_pos hhash, hk]

/-- C2 witness: two identical generate requests against a never-failing
constructor trigger at most one construction for their language code. -/
theorem c2_witness :
    ((runLoop env0 initState [genLine, genLine]).constructions.countP
      (fun x => scalarKeyEq x (.jstr "a"))) ≤ 1 :=
  (c2_construct_once env0 (fun _ _ => rfl)).1 [genLine, genLine] (.jstr "a")

/-- C10: when the pipeline constructor raises for a (hashable, uncached)
language code, nothing is stored — the cache is left exactly as it was —
the generate request that triggered it returns a failure response carrying
the exception text, and because the code is still uncached, the very next
`get_pipeline` for the same code invokes the constructor again (the
construction log grows by that code whether or not the retry succeeds):
only successfully constructed handles are ever cached. -/
theorem c10_failed_construction (env : Env) (s : SState)
    (t v lang p : JVal) (e : String)
    (hhash : hashable lang = true)
    (hmiss : klookup s.pipelines lang = none)
    (hcr : env.constructResult s.constructions.length lang = some e) :
    get_pipeline env s lang
      = (.error e, { s with constructions := s.constructions ++ [lang] })
    ∧ (get_pipeline env s lang).2.pipelines = s.pipelines
    ∧ generate_audio env s t v lang p
        = (failResp e, { s with constructions := s.constructions ++ [lang] })
    ∧ (get_pipeline env
         { s with constructions := s.constructions ++ [lang] }
         lang).2.constructions
        = (s.constructions ++ [lang]) ++ [lang] := by
  have h1 : get_pipeline env s lang
      = (.error e, { s with constructions := s.constructions ++ [lang] }) := by
    unfold get_pipeline
    rw [if_pos hhash, hmiss, hcr]
  refine ⟨h1, by rw [h1], ?_, ?_⟩
  · unfold generate_audio
    rw [h1]
  · unfold get_pipeline
    rw [if_pos hhash]
    have hm2 : klookup
        ({ s with constructions := s.constructions ++ [lang] }
          : SState).pipelines lang = none := hmiss
    rw [hm2]
    cases env.constructResult
        ({ s with constructions := s.constructions ++ [lang] }
          : SState).constructions.length lang with
    | some e2 => rfl
    | none => rfl

/-- C10 witness: with a constructor that raises on the process's first
invocation, a concrete generate request fails, caches nothing, and a
second lookup attempts construction again. -/
theorem c10_witness :
    (get_pipeline envFailOnce initState (.jstr "a")).2.pipelines
      = initState.pipelines
    ∧ (generate_audio envFailOnce initState (.jstr "hi") (.jstr "af_heart")
        (.jstr "a") (.jstr "out.wav"))
      = (failResp "model load failed",
         { initState with
             constructions := initState.constructions ++ [.jstr "a"] }) :=
  ⟨(c10_failed_construction envFailOnce initState (.jstr "hi")
      (.jstr "af_heart") (.jstr "a") (.jstr "out.wav") "model load failed"
      rfl rfl rfl).2.1,
   (c10_failed_construction envFailOnce initState (.jstr "hi")
      (.jstr "af_heart") (.jstr "a") (.jstr "out.wav") "model load failed"
      rfl rfl rfl).2.2.1⟩
